import Mathlib

/-!
# Verification of the mkdocs-drawio diagram-page resolution and embed-configuration engine

Shallow embedding of `src/mkdocs_drawio/plugin.py` (class `DrawioPlugin`).
Python values that can be an `int`, `bool` or `str` are modelled by the
`PyVal` sum type; Python `dict`s (which preserve insertion order) are
modelled by ordered association lists; code that can raise is modelled in
`Except String`; file and XML I/O is outside the model, so the splice
pipeline starts from the already-parsed list of `<diagram>` elements.
-/

/-- A parsed `<diagram>` element of a drawio container: optional `name`
attribute, optional `id` attribute, and its (opaque) XML content, which a
structural clone copies verbatim. -/
structure Diagram where
  name : Option String
  id : Option String
  content : String
deriving DecidableEq, Repr

deriving instance DecidableEq for Except

/-- A Python value as it flows through `get_diagram_config`: the embed-option
dictionary holds ints, bools and strings, plus the fixed `defaultFonts`
constant (whose contents never interact with the option logic). -/
inductive PyVal where
  | int (n : Int)
  | bool (b : Bool)
  | str (s : String)
  | fontList
deriving DecidableEq, Repr

/-- The per-instance attribute map of the `<img>` diagram tag
(`diagram.attrs`): an association list of attribute name to string value. -/
abbrev Attrs := List (String × String)

/-- `diagram.attrs.get(k)` / `k in diagram.attrs`. -/
def attrsGet (a : Attrs) (k : String) : Option String :=
  (a.find? (fun p => decide (p.1 = k))).map (fun p => p.2)

/-- The embed-option dictionary `conf`, an insertion-ordered map as in
Python. -/
abbrev Dict := List (String × PyVal)

/-- `conf[k]` lookup (`k in conf` is `(dfind c k).isSome`). -/
def dfind (c : Dict) (k : String) : Option PyVal :=
  match c with
  | [] => none
  | (k', v) :: t => if k' = k then some v else dfind t k

/-- `conf[k] = v`: overwrite in place if present (Python dicts keep the
original position), else append. -/
def dset (c : Dict) (k : String) (v : PyVal) : Dict :=
  match c with
  | [] => [(k, v)]
  | (k', v') :: t => if k' = k then (k, v) :: t else (k', v') :: dset t k v

/-- `del conf[k]` (first occurrence; keys are unique by construction). -/
def derase (c : Dict) (k : String) : Dict :=
  match c with
  | [] => []
  | (k', v') :: t => if k' = k then t else (k', v') :: derase t k

/-! ## Coercion helpers of `get_diagram_config` (plugin.py lines 113-137) -/

/-- Python truthiness restricted to the `PyVal` cases that occur. -/
def pyTruthy (v : PyVal) : Bool :=
  match v with
  | .int n => n ≠ 0
  | .bool b => b
  | .str s => s ≠ ""
  | .fontList => true

/-- Python `str(value)` as used by the accumulator f-string `f" {value}"`. -/
def pyStrOf (v : PyVal) : String :=
  match v with
  | .int n => toString n
  | .bool b => if b then "True" else "False"
  | .str s => s
  | .fontList => ""

/-- Python `str.strip()` on a character list (ASCII-whitespace model):
drop leading and trailing whitespace. Defined structurally so concrete
instances evaluate inside the kernel. -/
def pyStripChars (l : List Char) : List Char :=
  ((l.dropWhile Char.isWhitespace).reverse.dropWhile Char.isWhitespace).reverse

/-- Python `str.strip()`. -/
def pyStrip (s : String) : String := ⟨pyStripChars s.data⟩

/-- Python `str.lower()` (ASCII model). -/
def pyLower (s : String) : String := ⟨s.data.map Char.toLower⟩

/-- Python `sep.join(parts)`. -/
def pyJoin (sep : String) : List String → String
  | [] => ""
  | [x] => x
  | x :: y :: t => x ++ sep ++ pyJoin sep (y :: t)

/-- Digit-list value: `int` of a string of decimal digits (most significant
first), as a fold like Python's grammar-based parse. -/
def digitsVal (l : List Char) : Nat :=
  l.foldl (fun a c => 10 * a + (c.toNat - 48)) 0

/-- Python `str.isdigit()` (ASCII model): nonempty, all decimal digits. -/
def pyIsDigit (s : String) : Bool :=
  !s.data.isEmpty && s.data.all Char.isDigit

/-- Python `int(s)` for a plain string (ASCII model: optional surrounding
whitespace, optional sign, a nonempty run of decimal digits; digit-grouping
underscores are not modelled, nothing in this plugin produces them). Returns
`none` where Python raises `ValueError`. -/
def pyParseInt (s : String) : Option Int :=
  match pyStripChars s.data with
  | [] => none
  | c :: rest =>
    if c = '+' then
      if !rest.isEmpty && rest.all Char.isDigit then some (Int.ofNat (digitsVal rest)) else none
    else if c = '-' then
      if !rest.isEmpty && rest.all Char.isDigit then some (-(Int.ofNat (digitsVal rest))) else none
    else if (c :: rest).all Char.isDigit then some (Int.ofNat (digitsVal (c :: rest))) else none

/-- `no_action` (line 113). -/
def noAction (v : PyVal) : Except String (Option PyVal) := .ok (some v)

/-- The boolean value computed by `to_bool` (lines 116-124): bools pass
through; strings are matched case-insensitively; anything unparseable is
`False`. Raises (`AttributeError`) only on non-bool non-str input, which the
descriptor table never produces. -/
def toBoolCo (v : PyVal) : Except String (Option PyVal) :=
  match v with
  | .bool b => .ok (some (.bool b))
  | .str s =>
    if pyLower s ∈ ["true", "1", "yes"] then .ok (some (.bool true))
    else if pyLower s ∈ ["false", "0", "no"] then .ok (some (.bool false))
    else .ok (some (.bool false))
  | _ => .error "AttributeError: lower"

/-- Whether `to_bool` logs its `Could not parse boolean value` warning
(the `LOGGER.warning` side channel of lines 116-124). -/
def toBoolWarns (v : PyVal) : Bool :=
  match v with
  | .bool _ => false
  | .str s => !(pyLower s ∈ ["true", "1", "yes"] || pyLower s ∈ ["false", "0", "no"])
  | _ => false

/-- `to_int_or_str` (lines 126-130): try `int(x)`, fall back to the string. -/
def toIntOrStrCo (v : PyVal) : Except String (Option PyVal) :=
  match v with
  | .int n => .ok (some (.int n))
  | .bool b => .ok (some (.int (if b then 1 else 0)))
  | .str s =>
    match pyParseInt s with
    | some n => .ok (some (.int n))
    | none => .ok (some (.str s))
  | .fontList => .ok (some .fontList)

/-- `to_str(text)` (lines 132-137): a truthy input maps to the fixed literal,
a falsy one to the empty string. -/
def toStrCo (text : String) (v : PyVal) : Except String (Option PyVal) :=
  .ok (some (.str (if pyTruthy v then text else "")))

/-- The `data-edit` coercion lambda (lines 148-152): `True ↦ "_blank"`,
a string gets `client=1` appended with `&` or `?`, anything else is `None`. -/
def editCo (v : PyVal) : Except String (Option PyVal) :=
  match v with
  | .bool b => if b then .ok (some (.str "_blank")) else .ok none
  | .str s =>
    if s.data.any (fun c => c = '?') then .ok (some (.str (s ++ "&client=1")))
    else .ok (some (.str (s ++ "?client=1")))
  | _ => .ok none

/-- The `data-padding` coercion `lambda x: int(x) + 5` (line 154): unlike
`to_int_or_str` the `ValueError` of `int` is NOT caught here. -/
def paddingCo (v : PyVal) : Except String (Option PyVal) :=
  match v with
  | .int n => .ok (some (.int (n + 5)))
  | .bool b => .ok (some (.int ((if b then 1 else 0) + 5)))
  | .str s =>
    match pyParseInt s with
    | some n => .ok (some (.int (n + 5)))
    | none => .error "ValueError: invalid literal for int"
  | .fontList => .error "TypeError: int"

/-! ## Site configuration (class `Toolbar` / `DrawioConfig`, lines 25-52) -/

/-- `config.edit` has mkdocs type `(bool, str)`. -/
inductive PyEdit where
  | bool (b : Bool)
  | str (s : String)
deriving DecidableEq, Repr

/-- The `toolbar` sub-configuration (lines 25-34). -/
structure Toolbar where
  pages : Bool
  zoom : Bool
  layers : Bool
  lightbox : Bool
  position : String
  no_hide : Bool
deriving DecidableEq, Repr

/-- The site-wide plugin configuration fields consumed by the functions
modelled here (lines 36-52; caption and asset fields are used only by the
unmodelled HTML-mutation code). `padding` is always an int after validation
(`border`, when set, overwrites it in `_post_validate`). -/
structure DrawioConfig where
  toolbar : Toolbar
  tooltips : Bool
  padding : Int
  edit : PyEdit
  background : String
deriving DecidableEq, Repr

/-! ## The Option Resolver: `get_diagram_config` (lines 108-212) -/

/-- One row of the `embed_options` descriptor table
(`T = namedtuple("EmbedOption", ["attr", "name", "default", "coerce"])`). -/
structure EmbedOption where
  attr : String
  name : String
  default : Option PyVal
  coerce : PyVal → Except String (Option PyVal)

/-- The `embed_options` table (lines 140-168), in declared order. -/
def embedOptions (cfg : DrawioConfig) : List EmbedOption :=
  [ ⟨"data-page", "page", none, toIntOrStrCo⟩,
    ⟨"data-layers", "layers", none, noAction⟩,
    ⟨"data-zoom", "zoom", none, noAction⟩,
    ⟨"data-edit", "edit", none, editCo⟩,
    ⟨"data-padding", "border", some (.int cfg.padding), paddingCo⟩,
    ⟨"data-tooltips", "tooltips", some (.bool cfg.tooltips), toBoolCo⟩,
    ⟨"data-toolbar-position", "toolbar-position", some (.str cfg.toolbar.position), noAction⟩,
    ⟨"data-title", "title", none, noAction⟩,
    ⟨"data-nohide", "toolbar-nohide", some (.bool cfg.toolbar.no_hide), toBoolCo⟩,
    ⟨"data-toolbar-pages", "toolbar", some (.bool cfg.toolbar.pages), toStrCo "pages"⟩,
    ⟨"data-toolbar-zoom", "toolbar", some (.bool cfg.toolbar.zoom), toStrCo "zoom"⟩,
    ⟨"data-toolbar-layers", "toolbar", some (.bool cfg.toolbar.layers), toStrCo "layers"⟩,
    ⟨"data-toolbar-lightbox", "toolbar", some (.bool cfg.toolbar.lightbox), toStrCo "lightbox"⟩ ]

/-- The `value` computed for one descriptor (lines 173-177): coerce the
default if one is declared, then coerce the per-instance override if the
attribute is present (the override wins; either coercion may raise). -/
def computeValue (attrs : Attrs) (o : EmbedOption) : Except String (Option PyVal) :=
  match (match o.default with
         | none => Except.ok (none : Option PyVal)
         | some d => o.coerce d) with
  | .error e => .error e
  | .ok v =>
    match attrsGet attrs o.attr with
    | some s => o.coerce (.str s)
    | none => .ok v

/-- Store one resolved value (lines 178-183): `None` is skipped by the
caller; if the option name already holds a string, append space-separated
(`conf[name] += f" {value}"`), else assign. -/
def applyValue (c : Dict) (name : String) (v : PyVal) : Dict :=
  match dfind c name with
  | some (.str s) => dset c name (.str (s ++ " " ++ pyStrOf v))
  | some _ => dset c name v
  | none => dset c name v

/-- Process one descriptor of the resolver loop (lines 172-183). -/
def procOne (attrs : Attrs) (c : Dict) (o : EmbedOption) : Except String Dict :=
  match computeValue attrs o with
  | .error e => .error e
  | .ok none => .ok c
  | .ok (some v) => .ok (applyValue c o.name v)

/-- The full resolver loop over the descriptor table. -/
def procAll (attrs : Attrs) (l : List EmbedOption) (c : Dict) : Except String Dict :=
  match l with
  | [] => .ok c
  | o :: rest =>
    match procOne attrs c o with
    | .error e => .error e
    | .ok c' => procAll attrs rest c'

/-- Lines 185-187: `conf["toolbar"] = conf["toolbar"].strip()`, and delete
the key if the stripped accumulator is empty. A missing or non-string entry
would raise in Python (`KeyError` / `AttributeError`). -/
def toolbarFixup (c : Dict) : Except String Dict :=
  match dfind c "toolbar" with
  | some (.str s) =>
    if pyStrip s = "" then .ok (derase (dset c "toolbar" (.str (pyStrip s))) "toolbar")
    else .ok (dset c "toolbar" (.str (pyStrip s)))
  | some _ => .error "AttributeError: strip"
  | none => .error "KeyError: toolbar"

/-- `get_diagram_config` (lines 108-212): run the descriptor loop, fix up the
toolbar accumulator, then set the fixed `defaultFonts` constant and the
`viewerBackground` value (line 209 reads the `background` attribute with the
site configuration as fallback). -/
def getDiagramConfig (cfg : DrawioConfig) (attrs : Attrs) : Except String Dict :=
  match procAll attrs (embedOptions cfg) [] with
  | .error e => .error e
  | .ok conf =>
    match toolbarFixup conf with
    | .error e => .error e
    | .ok conf =>
      .ok (dset (dset conf "defaultFonts" .fontList) "viewerBackground"
            (.str ((attrsGet attrs "background").getD cfg.background)))

/-- A default site configuration mirroring the declared mkdocs defaults
(`pages/zoom/layers/lightbox = true`, `position = "top"`, `no_hide = false`,
`tooltips = true`, `padding = 10`, `edit = false`,
`background = "transparent"`). -/
def defaultConfig : DrawioConfig :=
  { toolbar := { pages := true, zoom := true, layers := true, lightbox := true,
                 position := "top", no_hide := false },
    tooltips := true, padding := 10, edit := .bool false,
    background := "transparent" }

/-! ## Decimal rendering: Python `str(i)` for a non-negative int -/

/-- Digits of `n` (most significant first) prepended to `acc`; the fuel
argument makes the recursion structural (any `fuel > n` is enough). -/
def natDigitsAux : Nat → Nat → List Char → List Char
  | 0, _, acc => acc
  | fuel + 1, n, acc =>
    if n = 0 then acc
    else natDigitsAux fuel (n / 10) (Nat.digitChar (n % 10) :: acc)

/-- Python `str(i)` for a natural number: standard decimal rendering. -/
def pyNatRepr (n : Nat) : String :=
  if n = 0 then "0" else ⟨natDigitsAux (n + 1) n []⟩

/-! ## The Page Selector and Container Splicer: `substitute_with_file`
(lines 318-452) -/

/-- Line 348: `all_available = [d.get("name") or str(i) for i, d in
enumerate(diagrams)]` — `or` takes the fallback when the name is absent or
empty. -/
def pyOr (o : Option String) (alt : String) : String :=
  match o with
  | some s => if s = "" then alt else s
  | none => alt

/-- The list of available page labels of a container (line 348), in the
offset-indexed recursive form used by the proofs: `availAux k l` is the
label list of `l` when its first element sits at position `k` of the
enumeration. `allAvailable` below is the direct transcription of the
comprehension; the two agree (`allAvailable_eq_availAux`). -/
def availAux (k : Nat) : List Diagram → List String
  | [] => []
  | d :: t => pyOr d.name (pyNatRepr k) :: availAux (k + 1) t

/-- The list of available page labels of a container (line 348). -/
def allAvailable (ds : List Diagram) : List String :=
  ds.enum.map (fun p => pyOr p.2.name (pyNatRepr p.1))

/-- `^\d+-\d+$` range tokens (line 366): exactly one `-` separating two
nonempty digit runs. -/
def rangeParse (s : String) : Option (Nat × Nat) :=
  match s.data.splitOn '-' with
  | [a, b] =>
    if (!a.isEmpty && a.all Char.isDigit) && (!b.isEmpty && b.all Char.isDigit) then
      some (digitsVal a, digitsVal b)
    else none
  | _ => none

/-- Expansion of one (already stripped) selector token (lines 362-374):
`@first`, `@last`, an inclusive ascending numeric range, or the literal
token itself. -/
def resolveToken (ds : List Diagram) (tok : String) : List String :=
  if tok = "@first" then ["0"]
  else if tok = "@last" then [pyNatRepr (ds.length - 1)]
  else
    match rangeParse tok with
    | some (a, b) => (List.range' a (b + 1 - a)).map pyNatRepr
    | none => [tok]

/-- The expansion/deduplication loop (lines 354-390). `exp` doubles as the
`seen` set (the code adds to `seen` exactly when it appends to
`expanded_pages`, so membership coincides); `dups` models the `duplicates`
set as an insertion-ordered duplicate-free list. -/
def expandTokens (ds : List Diagram) : List String → List String → List String →
    List String × List String
  | [], exp, dups => (exp, dups)
  | t :: rest, exp, dups =>
    let st := (resolveToken ds (pyStrip t)).foldl
      (fun p r =>
        if r ∈ p.1 then (p.1, if r ∈ p.2 then p.2 else p.2 ++ [r])
        else (p.1 ++ [r], p.2))
      (exp, dups)
    expandTokens ds rest st.1 st.2

/-- Insert into an ascending list (stable). -/
def insSorted (x : String) : List String → List String
  | [] => [x]
  | y :: t => if x ≤ y then x :: y :: t else y :: insSorted x t

/-- Python `sorted` for a list of strings (insertion sort; same result as
Python's lexicographic-by-code-point sort). -/
def sortStrs (l : List String) : List String := l.foldr insSorted []

/-- The `dup_list` summary of the duplicate warning (lines 383-388):
`", ".join(sorted(duplicates))`, emitted only when duplicates were dropped.
The full logged message wraps this list with the diagram file name and the
Markdown file path, which live outside the model. -/
def dupSummary (dups : List String) : Option String :=
  if dups.isEmpty then none else some (pyJoin ", " (sortStrs dups))

/-- A truthy optional string (`selected.get("name")` used as a condition):
`None` and `""` are falsy. -/
def pyTruthyStr (o : Option String) : Option String :=
  match o with
  | some s => if s = "" then none else some s
  | none => none

/-- The splice loop (lines 397-429). For each requested token: first match
by exact `name`, else (for a digit token) assign the loop-local `index` and
bounds-check it. The `st` argument models the Python local variable `index`,
which persists across iterations and is consulted by the
`str(index if 'index' in locals() else page)` fallback when the matched
page's own name is falsy. The clone (`etree.fromstring(etree.tostring(...))`)
is a structural copy, so the matched record itself is appended. -/
def spliceLoop (ds : List Diagram) : List String → Option Nat → List Diagram →
    List String → List Diagram × List String × Option Nat
  | [], st, accP, accN => (accP, accN, st)
  | tok :: rest, st, accP, accN =>
    match ds.find? (fun d => decide (d.name = some tok)) with
    | some d =>
      let label :=
        match pyTruthyStr d.name with
        | some n => n
        | none =>
          match st with
          | some ix => pyNatRepr ix
          | none => tok
      spliceLoop ds rest st (accP ++ [d]) (accN ++ [label])
    | none =>
      if pyIsDigit tok then
        let index := digitsVal tok.data
        match ds[index]? with
        | some d =>
          let label :=
            match pyTruthyStr d.name with
            | some n => n
            | none => pyNatRepr index
          spliceLoop ds rest (some index) (accP ++ [d]) (accN ++ [label])
        | none => spliceLoop ds rest (some index) accP accN
      else spliceLoop ds rest st accP accN

/-- One character of `html.escape` (quote=True). -/
def escChar (c : Char) : List Char :=
  if c = '&' then "&amp;".data
  else if c = '<' then "&lt;".data
  else if c = '>' then "&gt;".data
  else if c = '"' then "&quot;".data
  else if c = Char.ofNat 39 then "&#x27;".data
  else [c]

/-- Python `html.escape(s)` (quote=True). -/
def pyHtmlEscape (s : String) : String :=
  ⟨(s.data.map escChar).flatten⟩

/-- The fixed text of the error artifact before the interpolated message. -/
def styledErrorHtmlPrefix : String :=
  "\n        <div class=\"drawio-error\" style=\"\n            background-color: #fff0f0;\n            color: #a00000;\n            padding: 1em;\n            border: 1px solid #ff0000;\n            font-family: monospace;\n            margin-bottom: 1em;\n        \">\n            <span style=\"font-size: 1.2em; margin-right: 0.3em;\">❌</span>"

/-- The fixed text of the error artifact after the interpolated message. -/
def styledErrorHtmlSuffix : String := "\n        </div>\n        "

/-- `_styled_error_html` (lines 454-466): the self-contained error artifact,
reproduced byte for byte around the interpolated message. -/
def styledErrorHtml (message : String) : String :=
  "\n        <div class=\"drawio-error\" style=\"\n            background-color: #fff0f0;\n            color: #a00000;\n            padding: 1em;\n            border: 1px solid #ff0000;\n            font-family: monospace;\n            margin-bottom: 1em;\n        \">\n            <span style=\"font-size: 1.2em; margin-right: 0.3em;\">❌</span>"
  ++ message ++ "\n        </div>\n        "

/-- `", ".join(escape(name) for name in l)` (lines 434-435). -/
def joinEscaped (l : List String) : String :=
  pyJoin ", " (l.map pyHtmlEscape)

/-- The result of `substitute_with_file`: either the styled error artifact
(returned with an empty name list), or the spliced pages together with the
output name list. The success branch additionally serializes the spliced
`mxfile` container into the embed template; that serialization is the
`content` fields of the returned pages and is not re-rendered textually
here. -/
inductive SubResult where
  | err (html : String)
  | ok (pages : List Diagram) (names : List String)
deriving DecidableEq, Repr

/-- `substitute_with_file` (lines 318-452) from the point where the source
document has been parsed into its `<diagram>` elements (file lookup and XML
parse failures are I/O and end in the same kind of error artifact before
this logic runs). `pagesArg = none` means no selector was given: every page
is rendered. -/
def substituteWithFile (src : String) (ds : List Diagram)
    (pagesArg : Option (List String)) : SubResult :=
  if ds.isEmpty then
    .err (styledErrorHtml ("No diagrams found in <b>" ++ src ++ "</b>"))
  else
    let pages :=
      match pagesArg with
      | none => allAvailable ds
      | some ps => (expandTokens ds ps [] []).1
    let r := spliceLoop ds pages none [] []
    if r.1.isEmpty then
      .err (styledErrorHtml
        ("No matching pages found in <b>" ++ src ++ "</b><br>"
          ++ "Requested: <b>" ++ joinEscaped pages ++ "</b><br>"
          ++ "Available: <b>" ++ joinEscaped (allAvailable ds) ++ "</b>"))
    else .ok r.1 r.2.1

/-! ## The Editor-Link Builder gate: `inject_edit_link` (lines 468-496) -/

/-- Python `needle in hay` for strings: substring test. -/
def strContains (hay needle : String) : Bool :=
  hay.data.tails.any (fun t => needle.data.isPrefixOf t)

/-- `inject_edit_link` (lines 468-496). `buildUrl` abstracts
`build_editor_url` (host-URL string assembly consuming `page.edit_url`; it
returns `""` on failure), `page` models the mkdocs page object's presence
(`page is None`), and `diagramXml` the re-parsed original container
(`etree.fromstring(config_data["xml"])`, `None` when splicing failed).
Returns the editor href (or `none`) together with the possibly updated
`diagram_config` dictionary. -/
def injectEditLink (buildUrl : String → String) (cfg : DrawioConfig)
    (attrs : Attrs) (diagramXml : Option (List Diagram))
    (pageNames : List String) (page : Option Unit) (diagramConfig : Dict) :
    Option String × Dict :=
  let diagramEdit := pyLower ((attrsGet attrs "data-edit").getD "")
  if cfg.edit = .bool false || diagramEdit = "false" then (none, diagramConfig)
  else
    match diagramXml, pageNames, page with
    | none, _, _ => (none, diagramConfig)
    | some _, [], _ => (none, diagramConfig)
    | some _, _, none => (none, diagramConfig)
    | some xml, first :: _, some _ =>
      let pageId :=
        match xml.find? (fun d => decide (d.name = some first)) with
        | some d => d.id
        | none => none
      match pageId with
      | none => (none, diagramConfig)
      | some pid =>
        if pid = "" then (none, diagramConfig)
        else
          let href := buildUrl pid
          if href = "" then (none, diagramConfig)
          else
            let dc := dset diagramConfig "edit" (.str (href ++ "?client=1"))
            let dc2 :=
              match dfind dc "toolbar" with
              | some (.str s) =>
                if strContains s "edit" then dc
                else dset dc "toolbar" (.str (pyStrip (pyStrip s ++ " edit")))
              | some _ => dc
              | none => dset dc "toolbar" (.str (pyStrip (pyStrip "" ++ " edit")))
            (some href, dc2)

/-! ## Library lemmas about the embedded operations -/

theorem dfind_dset_self (c : Dict) (k : String) (v : PyVal) :
    dfind (dset c k v) k = some v := by
  induction c with
  | nil => simp [dset, dfind]
  | cons p t ih =>
    by_cases h : p.1 = k <;> simp [dset, dfind, h, ih]

theorem dfind_dset_ne (c : Dict) (k k' : String) (v : PyVal) (h : k ≠ k') :
    dfind (dset c k v) k' = dfind c k' := by
  induction c with
  | nil => simp [dset, dfind, h]
  | cons p t ih =>
    by_cases hp : p.1 = k <;> simp [dset, dfind, hp, ih]
    · subst hp; simp [dfind, h]

theorem dfind_derase_ne (c : Dict) (k k' : String) (h : k ≠ k') :
    dfind (derase c k) k' = dfind c k' := by
  induction c with
  | nil => simp [derase]
  | cons p t ih =>
    by_cases hp : p.1 = k <;> simp [derase, dfind, hp, ih]
    · subst hp; simp [dfind, h]

theorem natDigitsAux_zero (fuel : Nat) (acc : List Char) :
    natDigitsAux fuel 0 acc = acc := by
  cases fuel <;> simp [natDigitsAux]

theorem natDigitsAux_append (fuel : Nat) :
    ∀ n acc, natDigitsAux fuel n acc = natDigitsAux fuel n [] ++ acc := by
  induction fuel with
  | zero => intro n acc; simp [natDigitsAux]
  | succ fuel ih =>
    intro n acc
    by_cases h : n = 0
    · simp [natDigitsAux, h]
    · simp only [natDigitsAux, h, if_false]
      rw [ih (n / 10) (Nat.digitChar (n % 10) :: acc),
          ih (n / 10) [Nat.digitChar (n % 10)]]
      simp

theorem digitChar_isDigit : ∀ k < 10, (Nat.digitChar k).isDigit = true := by decide

theorem digitChar_toNat : ∀ k < 10, (Nat.digitChar k).toNat - 48 = k := by decide

theorem natDigitsAux_all_isDigit (fuel : Nat) :
    ∀ n acc, (∀ c ∈ acc, c.isDigit = true) →
      ∀ c ∈ natDigitsAux fuel n acc, c.isDigit = true := by
  induction fuel with
  | zero => intro n acc hacc; simpa [natDigitsAux] using hacc
  | succ fuel ih =>
    intro n acc hacc
    by_cases h : n = 0
    · simpa [natDigitsAux, h] using hacc
    · simp only [natDigitsAux, h, if_false]
      refine ih (n / 10) _ ?_
      intro c hc
      rcases List.mem_cons.mp hc with hc | hc
      · subst hc; exact digitChar_isDigit _ (Nat.mod_lt n (by norm_num))
      · exact hacc c hc

theorem natDigitsAux_ne_nil (fuel : Nat) (n : Nat) (acc : List Char)
    (h : n ≠ 0) : natDigitsAux (fuel + 1) n acc ≠ [] := by
  simp only [natDigitsAux, h, if_false]
  rw [natDigitsAux_append]
  simp

theorem natDigitsAux_foldl (fuel : Nat) :
    ∀ n, 0 < n → n < fuel → ∀ a : Nat,
      List.foldl (fun a c => 10 * a + (c.toNat - 48)) a (natDigitsAux fuel n []) =
        a * 10 ^ (natDigitsAux fuel n []).length + n := by
  induction fuel with
  | zero => intro n _ h; omega
  | succ fuel ih =>
    intro n hn hlt a
    have h : n ≠ 0 := Nat.pos_iff_ne_zero.mp hn
    simp only [natDigitsAux, h, if_false]
    by_cases h10 : n / 10 = 0
    · have hn10 : n < 10 := by
        by_contra h'
        push_neg at h'
        have : 1 ≤ n / 10 := (Nat.one_le_div_iff (by norm_num)).mpr h'
        omega
      rw [h10, natDigitsAux_zero]
      simp only [List.foldl_cons, List.foldl_nil, List.length_cons, List.length_nil]
      rw [digitChar_toNat _ (Nat.mod_lt n (by norm_num)), Nat.mod_eq_of_lt hn10]
      ring
    · rw [natDigitsAux_append]
      have hdiv : n / 10 < n := Nat.div_lt_self hn (by norm_num)
      have hdivfuel : n / 10 < fuel := by omega
      rw [List.foldl_append]
      simp only [List.foldl_cons, List.foldl_nil, List.length_append,
        List.length_cons, List.length_nil]
      rw [ih (n / 10) (Nat.pos_iff_ne_zero.mpr h10) hdivfuel a,
          digitChar_toNat _ (Nat.mod_lt n (by norm_num))]
      have := Nat.div_add_mod n 10
      rw [pow_succ]
      ring_nf
      try omega

theorem pyNatRepr_data_eq (n : Nat) (h : n ≠ 0) :
    (pyNatRepr n).data = natDigitsAux (n + 1) n [] := by
  simp [pyNatRepr, h]

theorem pyNatRepr_ne_empty (n : Nat) : pyNatRepr n ≠ "" := by
  by_cases h : n = 0
  · subst h; decide
  · intro hcontra
    have : (pyNatRepr n).data = [] := by rw [hcontra]
    rw [pyNatRepr_data_eq n h] at this
    exact natDigitsAux_ne_nil n n [] h this

theorem pyNatRepr_isDigit (n : Nat) : pyIsDigit (pyNatRepr n) = true := by
  by_cases h : n = 0
  · subst h; decide
  · simp only [pyIsDigit, Bool.and_eq_true]
    constructor
    · rw [pyNatRepr_data_eq n h]
      simpa [List.isEmpty_iff] using natDigitsAux_ne_nil n n [] h
    · rw [pyNatRepr_data_eq n h, List.all_eq_true]
      intro c hc
      exact natDigitsAux_all_isDigit (n + 1) n [] (by simp) c hc

theorem digitsVal_pyNatRepr (n : Nat) : digitsVal (pyNatRepr n).data = n := by
  by_cases h : n = 0
  · subst h; decide
  · rw [pyNatRepr_data_eq n h]
    have := natDigitsAux_foldl (n + 1) n (Nat.pos_iff_ne_zero.mpr h) (by omega) 0
    simpa [digitsVal] using this

/-! ## Resolver stepping lemmas -/

theorem procOne_ok_find_ne (attrs : Attrs) (o : EmbedOption) (c c' : Dict)
    (h : procOne attrs c o = .ok c') (k : String) (hk : o.name ≠ k) :
    dfind c' k = dfind c k := by
  unfold procOne at h
  rcases hcv : computeValue attrs o with e | v <;> rw [hcv] at h
  · cases h
  · rcases v with _ | v
    · change Except.ok c = Except.ok c' at h
      cases h; rfl
    · change Except.ok (applyValue c o.name v) = Except.ok c' at h
      cases h
      unfold applyValue
      rcases dfind c o.name with _ | w
      · exact dfind_dset_ne c o.name k v hk
      · rcases w with _ | _ | s | _ <;>
          simp [dfind_dset_ne _ _ _ _ hk]

theorem procAll_cons (attrs : Attrs) (o : EmbedOption) (l : List EmbedOption)
    (c : Dict) :
    procAll attrs (o :: l) c =
      match procOne attrs c o with
      | .error e => .error e
      | .ok c' => procAll attrs l c' := rfl

theorem procAll_append (attrs : Attrs) (l1 l2 : List EmbedOption) (c : Dict) :
    procAll attrs (l1 ++ l2) c =
      match procAll attrs l1 c with
      | .error e => .error e
      | .ok c' => procAll attrs l2 c' := by
  induction l1 generalizing c with
  | nil => simp [procAll]
  | cons o t ih =>
    simp only [List.cons_append, procAll]
    rcases procOne attrs c o with e | c' <;> simp [ih]

theorem procAll_preserves (attrs : Attrs) (l : List EmbedOption) (k : String)
    (hl : ∀ o ∈ l, o.name ≠ k) :
    ∀ c c', procAll attrs l c = .ok c' → dfind c' k = dfind c k := by
  induction l with
  | nil =>
    intro c c' h
    simp only [procAll, Except.ok.injEq] at h
    rw [h]
  | cons o t ih =>
    intro c c' h
    rw [procAll_cons] at h
    rcases ho : procOne attrs c o with e | c1 <;> rw [ho] at h
    · exact absurd h (by simp)
    · rw [ih (fun x hx => hl x (List.mem_cons_of_mem o hx)) c1 c' h]
      exact procOne_ok_find_ne attrs o c c1 ho k (hl o (List.mem_cons_self o t))

theorem applyValue_of_none (c : Dict) (k : String) (v : PyVal)
    (h : dfind c k = none) : applyValue c k v = dset c k v := by
  unfold applyValue
  rw [h]

theorem applyValue_of_str (c : Dict) (k : String) (v : PyVal) (t : String)
    (h : dfind c k = some (.str t)) :
    applyValue c k v = dset c k (.str (t ++ " " ++ pyStrOf v)) := by
  unfold applyValue
  rw [h]

theorem applyValue_str_find (c : Dict) (k : String) (s : String) :
    ∃ u, dfind (applyValue c k (.str s)) k = some (.str u) := by
  unfold applyValue
  rcases dfind c k with _ | w
  · exact ⟨s, dfind_dset_self c k _⟩
  · rcases w with n | b | t | _
    · exact ⟨s, dfind_dset_self c k _⟩
    · exact ⟨s, dfind_dset_self c k _⟩
    · exact ⟨t ++ " " ++ pyStrOf (.str s), dfind_dset_self c k _⟩
    · exact ⟨s, dfind_dset_self c k _⟩

theorem procOne_of_cv_some (attrs : Attrs) (c : Dict) (o : EmbedOption)
    (v : PyVal) (h : computeValue attrs o = .ok (some v)) :
    procOne attrs c o = .ok (applyValue c o.name v) := by
  simp [procOne, h]

theorem procOne_of_cv_none (attrs : Attrs) (c : Dict) (o : EmbedOption)
    (h : computeValue attrs o = .ok none) : procOne attrs c o = .ok c := by
  simp [procOne, h]

theorem toIntOrStrCo_str_ok (s : String) :
    ∃ r, toIntOrStrCo (.str s) = .ok r := by
  rcases h : pyParseInt s with _ | n
  · exact ⟨some (.str s), by simp [toIntOrStrCo, h]⟩
  · exact ⟨some (.int n), by simp [toIntOrStrCo, h]⟩

theorem toBoolCo_str_ok (s : String) : ∃ r, toBoolCo (.str s) = .ok r := by
  unfold toBoolCo
  by_cases h1 : pyLower s ∈ ["true", "1", "yes"] <;>
    by_cases h2 : pyLower s ∈ ["false", "0", "no"] <;>
      simp [h1, h2]

theorem editCo_str_ok (s : String) : ∃ r, editCo (.str s) = .ok r := by
  unfold editCo
  by_cases h : s.data.any (fun c => c = '?') <;> simp [h]

theorem paddingCo_str_ok (s : String) (n : Int) (h : pyParseInt s = some n) :
    paddingCo (.str s) = .ok (some (.int (n + 5))) := by
  simp [paddingCo, h]

/-! ## Claim theorems -/

/-- C8: `to_bool` maps, case-insensitively via `lower()`, each of
`"true"/"1"/"yes"` to `True` and `"false"/"0"/"no"` to `False`; every other
string coerces to `False` with a logged warning; on strings it never
raises. -/
theorem C8_to_bool (s : String) :
    (∃ b, toBoolCo (.str s) = .ok (some (.bool b))) ∧
    (toBoolCo (.str s) = .ok (some (.bool true)) ↔
      pyLower s ∈ ["true", "1", "yes"]) ∧
    (toBoolWarns (.str s) = true ↔
      (pyLower s ∉ ["true", "1", "yes"] ∧ pyLower s ∉ ["false", "0", "no"])) ∧
    toBoolCo (.str "Yes") = .ok (some (.bool true)) ∧
    toBoolCo (.str "1") = .ok (some (.bool true)) ∧
    toBoolCo (.str "TrUe") = .ok (some (.bool true)) ∧
    toBoolCo (.str "No") = .ok (some (.bool false)) ∧
    toBoolCo (.str "0") = .ok (some (.bool false)) ∧
    toBoolCo (.str "FALSE") = .ok (some (.bool false)) ∧
    toBoolCo (.str "maybe") = .ok (some (.bool false)) ∧
    toBoolWarns (.str "maybe") = true ∧
    toBoolWarns (.str "Yes") = false := by
  refine ⟨?_, ?_, ?_, by decide, by decide, by decide, by decide, by decide,
    by decide, by decide, by decide, by decide⟩ <;>
    by_cases h1 : pyLower s ∈ ["true", "1", "yes"] <;>
      by_cases h2 : pyLower s ∈ ["false", "0", "no"] <;>
        simp [toBoolCo, toBoolWarns, h1, h2]

/-- C1 (counterexample): with toolbar defaults `pages=true, zoom=false,
layers=true, lightbox=true` and no overrides, the resolved `toolbar` option
is `"pages  layers lightbox"` — the disabled `zoom` toggle still contributes
its separating space via `conf["toolbar"] += f" {value}"` with an empty
value, so the claimed single-space join `"pages layers lightbox"` is not
what the code produces. -/
theorem C1_counterexample :
    (match getDiagramConfig
        { defaultConfig with
            toolbar := { defaultConfig.toolbar with zoom := false } } [] with
     | .ok d => dfind d "toolbar"
     | .error _ => none) = some (.str "pages  layers lightbox") ∧
    ("pages  layers lightbox" : String) ≠ "pages layers lightbox" :=
  ⟨by decide, by decide⟩

/-- C1 (amended): with toolbar feature defaults `pages=true, zoom=false,
layers=true, lightbox=true` and no per-instance toolbar overrides, the
merged options map `"toolbar"` to exactly `"pages  layers lightbox"`:
enabled toggles append their token after a single space, a disabled toggle
appends an empty token (leaving the double space where `zoom` was dropped),
and only leading/trailing whitespace is trimmed at the end (the value would
be deleted entirely were it empty after trimming). -/
theorem C1_amended (cfg : DrawioConfig) (attrs : Attrs) (d : Dict)
    (hp : cfg.toolbar.pages = true) (hz : cfg.toolbar.zoom = false)
    (hl : cfg.toolbar.layers = true) (hb : cfg.toolbar.lightbox = true)
    (ha1 : attrsGet attrs "data-toolbar-pages" = none)
    (ha2 : attrsGet attrs "data-toolbar-zoom" = none)
    (ha3 : attrsGet attrs "data-toolbar-layers" = none)
    (ha4 : attrsGet attrs "data-toolbar-lightbox" = none)
    (h : getDiagramConfig cfg attrs = .ok d) :
    dfind d "toolbar" = some (.str "pages  layers lightbox") := by
  unfold getDiagramConfig at h
  rcases hall : procAll attrs (embedOptions cfg) [] with e | conf
  · rw [hall] at h; cases h
  simp only [hall] at h
  rcases hfix : toolbarFixup conf with e | conf2
  · rw [hfix] at h; cases h
  simp only [hfix, Except.ok.injEq] at h
  subst h
  rw [dfind_dset_ne _ _ _ _ (by decide), dfind_dset_ne _ _ _ _ (by decide)]
  -- split the descriptor table after the nine non-toolbar rows
  rw [(List.take_append_drop 9 (embedOptions cfg)).symm, procAll_append] at hall
  rcases h9 : procAll attrs (List.take 9 (embedOptions cfg)) [] with e | c9
  · rw [h9] at hall; cases hall
  simp only [h9] at hall
  have htake : List.take 9 (embedOptions cfg) =
      [⟨"data-page", "page", none, toIntOrStrCo⟩,
       ⟨"data-layers", "layers", none, noAction⟩,
       ⟨"data-zoom", "zoom", none, noAction⟩,
       ⟨"data-edit", "edit", none, editCo⟩,
       ⟨"data-padding", "border", some (.int cfg.padding), paddingCo⟩,
       ⟨"data-tooltips", "tooltips", some (.bool cfg.tooltips), toBoolCo⟩,
       ⟨"data-toolbar-position", "toolbar-position", some (.str cfg.toolbar.position), noAction⟩,
       ⟨"data-title", "title", none, noAction⟩,
       ⟨"data-nohide", "toolbar-nohide", some (.bool cfg.toolbar.no_hide), toBoolCo⟩] := rfl
  have hc9 : dfind c9 "toolbar" = none := by
    rw [procAll_preserves attrs _ "toolbar" ?_ [] c9 h9]
    · rfl
    · intro o ho
      rw [htake] at ho
      simp only [List.mem_cons, List.not_mem_nil, or_false] at ho
      rcases ho with rfl | rfl | rfl | rfl | rfl | rfl | rfl | rfl | rfl <;> simp
  have hdrop : List.drop 9 (embedOptions cfg) =
      [⟨"data-toolbar-pages", "toolbar", some (.bool cfg.toolbar.pages), toStrCo "pages"⟩,
       ⟨"data-toolbar-zoom", "toolbar", some (.bool cfg.toolbar.zoom), toStrCo "zoom"⟩,
       ⟨"data-toolbar-layers", "toolbar", some (.bool cfg.toolbar.layers), toStrCo "layers"⟩,
       ⟨"data-toolbar-lightbox", "toolbar", some (.bool cfg.toolbar.lightbox), toStrCo "lightbox"⟩] := rfl
  rw [hdrop] at hall
  have hcv1 : computeValue attrs
      ⟨"data-toolbar-pages", "toolbar", some (.bool cfg.toolbar.pages), toStrCo "pages"⟩ =
      .ok (some (.str "pages")) := by
    simp [computeValue, toStrCo, ha1, hp, pyTruthy]
  have hcv2 : computeValue attrs
      ⟨"data-toolbar-zoom", "toolbar", some (.bool cfg.toolbar.zoom), toStrCo "zoom"⟩ =
      .ok (some (.str "")) := by
    simp [computeValue, toStrCo, ha2, hz, pyTruthy]
  have hcv3 : computeValue attrs
      ⟨"data-toolbar-layers", "toolbar", some (.bool cfg.toolbar.layers), toStrCo "layers"⟩ =
      .ok (some (.str "layers")) := by
    simp [computeValue, toStrCo, ha3, hl, pyTruthy]
  have hcv4 : computeValue attrs
      ⟨"data-toolbar-lightbox", "toolbar", some (.bool cfg.toolbar.lightbox), toStrCo "lightbox"⟩ =
      .ok (some (.str "lightbox")) := by
    simp [computeValue, toStrCo, hb, ha4, pyTruthy]
  have hp1 : procOne attrs c9
      ⟨"data-toolbar-pages", "toolbar", some (.bool cfg.toolbar.pages), toStrCo "pages"⟩ =
      .ok (dset c9 "toolbar" (.str "pages")) := by
    rw [procOne_of_cv_some attrs c9 _ _ hcv1, applyValue_of_none _ _ _ hc9]
  have hp2 : procOne attrs (dset c9 "toolbar" (.str "pages"))
      ⟨"data-toolbar-zoom", "toolbar", some (.bool cfg.toolbar.zoom), toStrCo "zoom"⟩ =
      .ok (dset (dset c9 "toolbar" (.str "pages")) "toolbar" (.str "pages ")) := by
    rw [procOne_of_cv_some attrs _ _ _ hcv2,
        applyValue_of_str _ _ _ _ (dfind_dset_self c9 "toolbar" _),
        show ("pages" ++ " " ++ pyStrOf (PyVal.str "") : String) = "pages " from by decide]
  have hp3 : procOne attrs (dset (dset c9 "toolbar" (.str "pages")) "toolbar" (.str "pages "))
      ⟨"data-toolbar-layers", "toolbar", some (.bool cfg.toolbar.layers), toStrCo "layers"⟩ =
      .ok (dset (dset (dset c9 "toolbar" (.str "pages")) "toolbar" (.str "pages "))
        "toolbar" (.str "pages  layers")) := by
    rw [procOne_of_cv_some attrs _ _ _ hcv3,
        applyValue_of_str _ _ _ _ (dfind_dset_self _ "toolbar" _),
        show ("pages " ++ " " ++ pyStrOf (PyVal.str "layers") : String) = "pages  layers" from by decide]
  have hp4 : procOne attrs (dset (dset (dset c9 "toolbar" (.str "pages")) "toolbar"
      (.str "pages ")) "toolbar" (.str "pages  layers"))
      ⟨"data-toolbar-lightbox", "toolbar", some (.bool cfg.toolbar.lightbox), toStrCo "lightbox"⟩ =
      .ok (dset (dset (dset (dset c9 "toolbar" (.str "pages")) "toolbar" (.str "pages "))
        "toolbar" (.str "pages  layers")) "toolbar" (.str "pages  layers lightbox")) := by
    rw [procOne_of_cv_some attrs _ _ _ hcv4,
        applyValue_of_str _ _ _ _ (dfind_dset_self _ "toolbar" _),
        show ("pages  layers" ++ " " ++ pyStrOf (PyVal.str "lightbox") : String) =
          "pages  layers lightbox" from by decide]
  simp only [procAll, hp1, hp2, hp3, hp4, Except.ok.injEq] at hall
  have hconf : dfind conf "toolbar" = some (.str "pages  layers lightbox") := by
    rw [← hall]
    exact dfind_dset_self _ "toolbar" _
  unfold toolbarFixup at hfix
  simp only [hconf] at hfix
  rw [show pyStrip "pages  layers lightbox" = "pages  layers lightbox" from by decide,
      if_neg (by decide : ¬ ("pages  layers lightbox" : String) = "")] at hfix
  cases hfix
  exact dfind_dset_self _ "toolbar" _

/-- C1 (witness): the amended theorem evaluated at the default site
configuration with `zoom` disabled and an empty attribute map. -/
theorem C1_witness :
    dfind ((getDiagramConfig
        { defaultConfig with
            toolbar := { defaultConfig.toolbar with zoom := false } } []).toOption.getD [])
      "toolbar" = some (.str "pages  layers lightbox") := by
  have h : getDiagramConfig
      { defaultConfig with
          toolbar := { defaultConfig.toolbar with zoom := false } } [] =
      .ok ((getDiagramConfig
        { defaultConfig with
            toolbar := { defaultConfig.toolbar with zoom := false } } []).toOption.getD []) := by
    decide
  exact C1_amended _ [] _ (by decide) (by decide) (by decide) (by decide) rfl rfl rfl rfl h

theorem toolbarFixup_preserves (c c' : Dict) (h : toolbarFixup c = .ok c')
    (k : String) (hk : k ≠ "toolbar") : dfind c' k = dfind c k := by
  unfold toolbarFixup at h
  rcases hf : dfind c "toolbar" with _ | w
  · rw [hf] at h; cases h
  · rcases w with n | b | s | f
    · rw [hf] at h; cases h
    · rw [hf] at h; cases h
    · simp only [hf] at h
      by_cases hs : pyStrip s = ""
      · rw [if_pos hs] at h
        cases h
        rw [dfind_derase_ne _ _ _ (Ne.symm hk), dfind_dset_ne _ _ _ _ (Ne.symm hk)]
      · rw [if_neg hs] at h
        cases h
        rw [dfind_dset_ne _ _ _ _ (Ne.symm hk)]
    · rw [hf] at h; cases h

theorem toolbarFixup_ok_of_str (c : Dict) (u : String)
    (h : dfind c "toolbar" = some (.str u)) : ∃ c', toolbarFixup c = .ok c' := by
  unfold toolbarFixup
  simp only [h]
  by_cases hs : pyStrip u = ""
  · rw [if_pos hs]; exact ⟨_, rfl⟩
  · rw [if_neg hs]; exact ⟨_, rfl⟩

theorem procOne_total (attrs : Attrs) (o : EmbedOption)
    (hdef : ∀ dv, o.default = some dv → ∃ r, o.coerce dv = .ok r)
    (hstr : ∀ s, attrsGet attrs o.attr = some s → ∃ r, o.coerce (.str s) = .ok r)
    (c : Dict) : ∃ c', procOne attrs c o = .ok c' := by
  have hcv : ∃ r, computeValue attrs o = .ok r := by
    unfold computeValue
    rcases hd : o.default with _ | dv
    · rcases ha : attrsGet attrs o.attr with _ | s
      · simp only [ha]; exact ⟨none, rfl⟩
      · simp only [ha]; exact hstr s ha
    · obtain ⟨r, hr⟩ := hdef dv hd
      rcases ha : attrsGet attrs o.attr with _ | s
      · simp only [hr, ha]; exact ⟨r, rfl⟩
      · simp only [hr, ha]; exact hstr s ha
  obtain ⟨r, hr⟩ := hcv
  rcases r with _ | v
  · exact ⟨c, procOne_of_cv_none attrs c o hr⟩
  · exact ⟨_, procOne_of_cv_some attrs c o v hr⟩

theorem cv_toolbar_str (attrs : Attrs) (text attr : String) (flag : Bool) :
    ∃ u, computeValue attrs ⟨attr, "toolbar", some (.bool flag), toStrCo text⟩ =
      .ok (some (.str u)) := by
  unfold computeValue
  rcases ha : attrsGet attrs attr with _ | s
  · simp only [toStrCo, ha]; exact ⟨_, rfl⟩
  · simp only [toStrCo, ha]; exact ⟨_, rfl⟩

theorem procOne_toolbar_str (attrs : Attrs) (c : Dict) (text attr : String)
    (flag : Bool) :
    ∃ c', procOne attrs c ⟨attr, "toolbar", some (.bool flag), toStrCo text⟩ = .ok c' ∧
      ∃ u, dfind c' "toolbar" = some (.str u) := by
  obtain ⟨u, hcv⟩ := cv_toolbar_str attrs text attr flag
  exact ⟨applyValue c "toolbar" (.str u), procOne_of_cv_some attrs c _ _ hcv,
    applyValue_str_find c "toolbar" u⟩

/-- C3 (counterexample): the Option Resolver is NOT total — a `data-padding`
override that does not parse as an integer propagates the uncaught
`ValueError` of `lambda x: int(x) + 5`, so resolving raises instead of
returning an options map. -/
theorem C3_counterexample :
    getDiagramConfig defaultConfig [("data-padding", "abc")] =
      .error "ValueError: invalid literal for int" := by decide

/-- C3 (amended): the Option Resolver is total for every site configuration
and every attribute map whose `data-padding` override (when present) parses
as an integer; in particular arbitrary values of the other documented
attributes — including unparseable boolean strings, which only log a warning
and coerce to false — never make it raise. -/
theorem C3_amended (cfg : DrawioConfig) (attrs : Attrs)
    (hpad : (match attrsGet attrs "data-padding" with
             | some s => (pyParseInt s).isSome
             | none => true) = true) :
    ∃ d, getDiagramConfig cfg attrs = .ok d := by
  obtain ⟨c1, h1⟩ := procOne_total attrs ⟨"data-page", "page", none, toIntOrStrCo⟩
    (by intro dv hdv; cases hdv) (fun s _ => toIntOrStrCo_str_ok s) []
  obtain ⟨c2, h2⟩ := procOne_total attrs ⟨"data-layers", "layers", none, noAction⟩
    (by intro dv hdv; cases hdv) (fun s _ => ⟨_, rfl⟩) c1
  obtain ⟨c3, h3⟩ := procOne_total attrs ⟨"data-zoom", "zoom", none, noAction⟩
    (by intro dv hdv; cases hdv) (fun s _ => ⟨_, rfl⟩) c2
  obtain ⟨c4, h4⟩ := procOne_total attrs ⟨"data-edit", "edit", none, editCo⟩
    (by intro dv hdv; cases hdv) (fun s _ => editCo_str_ok s) c3
  obtain ⟨c5, h5⟩ := procOne_total attrs
    ⟨"data-padding", "border", some (.int cfg.padding), paddingCo⟩
    (by intro dv hdv; cases hdv; exact ⟨_, rfl⟩)
    (by
      intro s hs
      rw [hs] at hpad
      obtain ⟨n, hn⟩ := Option.isSome_iff_exists.mp hpad
      exact ⟨_, paddingCo_str_ok s n hn⟩) c4
  obtain ⟨c6, h6⟩ := procOne_total attrs
    ⟨"data-tooltips", "tooltips", some (.bool cfg.tooltips), toBoolCo⟩
    (by intro dv hdv; cases hdv; exact ⟨_, rfl⟩)
    (fun s _ => toBoolCo_str_ok s) c5
  obtain ⟨c7, h7⟩ := procOne_total attrs
    ⟨"data-toolbar-position", "toolbar-position", some (.str cfg.toolbar.position), noAction⟩
    (by intro dv hdv; cases hdv; exact ⟨_, rfl⟩) (fun s _ => ⟨_, rfl⟩) c6
  obtain ⟨c8, h8⟩ := procOne_total attrs ⟨"data-title", "title", none, noAction⟩
    (by intro dv hdv; cases hdv) (fun s _ => ⟨_, rfl⟩) c7
  obtain ⟨c9, h9⟩ := procOne_total attrs
    ⟨"data-nohide", "toolbar-nohide", some (.bool cfg.toolbar.no_hide), toBoolCo⟩
    (by intro dv hdv; cases hdv; exact ⟨_, rfl⟩)
    (fun s _ => toBoolCo_str_ok s) c8
  obtain ⟨c10, h10, _⟩ := procOne_toolbar_str attrs c9 "pages" "data-toolbar-pages"
    cfg.toolbar.pages
  obtain ⟨c11, h11, _⟩ := procOne_toolbar_str attrs c10 "zoom" "data-toolbar-zoom"
    cfg.toolbar.zoom
  obtain ⟨c12, h12, _⟩ := procOne_toolbar_str attrs c11 "layers" "data-toolbar-layers"
    cfg.toolbar.layers
  obtain ⟨c13, h13, u, hu⟩ := procOne_toolbar_str attrs c12 "lightbox"
    "data-toolbar-lightbox" cfg.toolbar.lightbox
  have hall : procAll attrs (embedOptions cfg) [] = .ok c13 := by
    simp only [embedOptions, procAll, h1, h2, h3, h4, h5, h6, h7, h8, h9, h10,
      h11, h12, h13]
  obtain ⟨c14, h14⟩ := toolbarFixup_ok_of_str c13 u hu
  unfold getDiagramConfig
  simp only [hall, h14]
  exact ⟨_, rfl⟩

/-- C3 (witness): a configuration with an unparseable boolean
(`data-tooltips="maybe"`) and a numeric padding override resolves without
raising. -/
theorem C3_witness :
    ∃ d, getDiagramConfig defaultConfig
      [("data-tooltips", "maybe"), ("data-padding", "12")] = .ok d :=
  C3_amended defaultConfig [("data-tooltips", "maybe"), ("data-padding", "12")]
    (by decide)

/-- C9: the emitted `border` option always equals the effective padding plus
5 — the site-configured `padding` plus 5 when no `data-padding` override is
given, and the integer parse of the override string plus 5 when one is; the
configured value is never passed through unchanged. -/
theorem C9_border (cfg : DrawioConfig) (attrs : Attrs) (d : Dict)
    (h : getDiagramConfig cfg attrs = .ok d) :
    (attrsGet attrs "data-padding" = none →
      dfind d "border" = some (.int (cfg.padding + 5))) ∧
    (∀ s n, attrsGet attrs "data-padding" = some s → pyParseInt s = some n →
      dfind d "border" = some (.int (n + 5))) := by
  unfold getDiagramConfig at h
  rcases hall : procAll attrs (embedOptions cfg) [] with e | conf
  · rw [hall] at h; cases h
  simp only [hall] at h
  rcases hfix : toolbarFixup conf with e | conf2
  · rw [hfix] at h; cases h
  simp only [hfix, Except.ok.injEq] at h
  subst h
  have hkey : ∀ v, computeValue attrs
      ⟨"data-padding", "border", some (.int cfg.padding), paddingCo⟩ =
        .ok (some v) →
      dfind (dset (dset conf2 "defaultFonts" .fontList) "viewerBackground"
        (.str ((attrsGet attrs "background").getD cfg.background))) "border" =
        some v := by
    intro v hcv
    rw [dfind_dset_ne _ _ _ _ (by decide), dfind_dset_ne _ _ _ _ (by decide)]
    rw [(List.take_append_drop 5 (embedOptions cfg)).symm, procAll_append] at hall
    rcases h5 : procAll attrs (List.take 5 (embedOptions cfg)) [] with e | c5
    · rw [h5] at hall; cases hall
    simp only [h5] at hall
    have hconf : dfind conf "border" = dfind c5 "border" := by
      refine procAll_preserves attrs _ "border" ?_ c5 conf hall
      intro o ho
      rw [show List.drop 5 (embedOptions cfg) =
        [⟨"data-tooltips", "tooltips", some (.bool cfg.tooltips), toBoolCo⟩,
         ⟨"data-toolbar-position", "toolbar-position", some (.str cfg.toolbar.position), noAction⟩,
         ⟨"data-title", "title", none, noAction⟩,
         ⟨"data-nohide", "toolbar-nohide", some (.bool cfg.toolbar.no_hide), toBoolCo⟩,
         ⟨"data-toolbar-pages", "toolbar", some (.bool cfg.toolbar.pages), toStrCo "pages"⟩,
         ⟨"data-toolbar-zoom", "toolbar", some (.bool cfg.toolbar.zoom), toStrCo "zoom"⟩,
         ⟨"data-toolbar-layers", "toolbar", some (.bool cfg.toolbar.layers), toStrCo "layers"⟩,
         ⟨"data-toolbar-lightbox", "toolbar", some (.bool cfg.toolbar.lightbox), toStrCo "lightbox"⟩]
        from rfl] at ho
      simp only [List.mem_cons, List.not_mem_nil, or_false] at ho
      rcases ho with rfl | rfl | rfl | rfl | rfl | rfl | rfl | rfl <;> simp
    rw [toolbarFixup_preserves conf conf2 hfix "border" (by decide), hconf]
    rw [show List.take 5 (embedOptions cfg) =
      List.take 4 (embedOptions cfg) ++
        [⟨"data-padding", "border", some (.int cfg.padding), paddingCo⟩] from rfl,
      procAll_append] at h5
    rcases h4 : procAll attrs (List.take 4 (embedOptions cfg)) [] with e | c4
    · rw [h4] at h5; cases h5
    simp only [h4] at h5
    have hc4 : dfind c4 "border" = none := by
      rw [procAll_preserves attrs _ "border" ?_ [] c4 h4]
      · rfl
      · intro o ho
        rw [show List.take 4 (embedOptions cfg) =
          [⟨"data-page", "page", none, toIntOrStrCo⟩,
           ⟨"data-layers", "layers", none, noAction⟩,
           ⟨"data-zoom", "zoom", none, noAction⟩,
           ⟨"data-edit", "edit", none, editCo⟩] from rfl] at ho
        simp only [List.mem_cons, List.not_mem_nil, or_false] at ho
        rcases ho with rfl | rfl | rfl | rfl <;> simp
    rw [procAll_cons] at h5
    rw [procOne_of_cv_some attrs c4 _ _ hcv, applyValue_of_none _ _ _ hc4] at h5
    simp only [procAll, Except.ok.injEq] at h5
    rw [← h5]
    exact dfind_dset_self c4 "border" _
  constructor
  · intro hnone
    refine hkey (.int (cfg.padding + 5)) ?_
    unfold computeValue
    simp only [paddingCo, hnone]
  · intro s n hs hn
    refine hkey (.int (n + 5)) ?_
    unfold computeValue
    simp only [paddingCo, hs, hn]

/-- C9 (witness): with the default configuration (`padding = 10`) and no
override the emitted border is 15; with `data-padding="7"` it is 12. -/
theorem C9_witness :
    dfind ((getDiagramConfig defaultConfig []).toOption.getD []) "border" =
      some (.int 15) ∧
    dfind ((getDiagramConfig defaultConfig
        [("data-padding", "7")]).toOption.getD []) "border" = some (.int 12) := by
  have ha : getDiagramConfig defaultConfig [] =
      .ok ((getDiagramConfig defaultConfig []).toOption.getD []) := by decide
  have hb : getDiagramConfig defaultConfig [("data-padding", "7")] =
      .ok ((getDiagramConfig defaultConfig
        [("data-padding", "7")]).toOption.getD []) := by decide
  constructor
  · exact (C9_border defaultConfig [] _ ha).1 rfl
  · exact (C9_border defaultConfig [("data-padding", "7")] _ hb).2 "7" 7 rfl (by decide)

/-! ## Splice lemmas -/

theorem pyOr_eq_truthy (o : Option String) (alt : String) :
    pyOr o alt = match pyTruthyStr o with | some n => n | none => alt := by
  rcases o with _ | s
  · rfl
  · by_cases h : s = "" <;> simp [pyOr, pyTruthyStr, h]

theorem pyTruthyStr_eq_some {o : Option String} {n : String}
    (h : pyTruthyStr o = some n) : o = some n ∧ n ≠ "" := by
  rcases o with _ | s
  · cases h
  · by_cases hs : s = "" <;> simp [pyTruthyStr, hs] at h
    exact ⟨by rw [h.symm], by rw [← h]; exact hs⟩

theorem pyTruthyStr_eq_none {o : Option String} (h : pyTruthyStr o = none) :
    o = none ∨ o = some "" := by
  rcases o with _ | s
  · exact Or.inl rfl
  · by_cases hs : s = "" <;> simp [pyTruthyStr, hs] at h
    exact Or.inr (by rw [hs])

theorem availAux_append (l1 l2 : List Diagram) :
    ∀ k, availAux k (l1 ++ l2) = availAux k l1 ++ availAux (k + l1.length) l2 := by
  induction l1 with
  | nil => intro k; simp [availAux]
  | cons d t ih =>
    intro k
    simp only [List.cons_append, availAux, List.append_eq]
    rw [ih (k + 1)]
    have : k + 1 + t.length = k + (d :: t).length := by
      simp only [List.length_cons]
      omega
    rw [this]

theorem allAvailable_eq_availAux (ds : List Diagram) :
    allAvailable ds = availAux 0 ds := by
  have haux : ∀ (l : List Diagram) (k : Nat),
      (List.enumFrom k l).map (fun p => pyOr p.2.name (pyNatRepr p.1)) =
        availAux k l := by
    intro l
    induction l with
    | nil => intro k; simp [availAux, List.enumFrom]
    | cons d t ih => intro k; simp [availAux, List.enumFrom, ih (k + 1)]
  unfold allAvailable
  rw [show ds.enum = List.enumFrom 0 ds from rfl]
  exact haux ds 0

theorem mem_availAux_of_name {x : Diagram} {l : List Diagram} {n : String}
    (hx : x ∈ l) (hn : x.name = some n) (hne : n ≠ "") :
    ∀ k, n ∈ availAux k l := by
  induction l with
  | nil => cases hx
  | cons d t ih =>
    intro k
    rcases List.mem_cons.mp hx with rfl | hx'
    · simp only [availAux, pyOr, hn, if_neg hne]
      exact List.mem_cons_self _ _
    · exact List.mem_cons_of_mem _ (ih hx' (k + 1))

theorem find?_append_of_none {α : Type} {p : α → Bool} {l1 l2 : List α}
    (h : List.find? p l1 = none) :
    List.find? p (l1 ++ l2) = List.find? p l2 := by
  induction l1 with
  | nil => simp
  | cons a t ih =>
    rcases List.find?_eq_none.mp h a (List.mem_cons_self a t) with hp
    rw [List.cons_append, List.find?_cons_of_neg _ hp]
    exact ih (by
      rw [List.find?_cons_of_neg _ hp] at h
      exact h)

theorem spliceLoop_all (ds : List Diagram) (hnd : (availAux 0 ds).Nodup) :
    ∀ (suf pre : List Diagram) (st : Option Nat) (accP : List Diagram)
      (accN : List String), ds = pre ++ suf →
      ∃ st', spliceLoop ds (availAux pre.length suf) st accP accN =
        (accP ++ suf, accN ++ availAux pre.length suf, st') := by
  intro suf
  induction suf with
  | nil => intro pre st accP accN _; exact ⟨st, by simp [availAux, spliceLoop]⟩
  | cons d suf' ih =>
    intro pre st accP accN hds
    have hsplit : availAux 0 ds =
        availAux 0 pre ++ availAux pre.length (d :: suf') := by
      rw [hds, availAux_append]
      simp
    have hndp : (availAux 0 pre ++ availAux pre.length (d :: suf')).Nodup := by
      rw [← hsplit]; exact hnd
    have hdisj : (availAux 0 pre).Disjoint (availAux pre.length (d :: suf')) :=
      (List.nodup_append.mp hndp).2.2
    have hndr : (availAux pre.length (d :: suf')).Nodup :=
      List.Nodup.of_append_right hndp
    have hheadmem : pyOr d.name (pyNatRepr pre.length) ∈
        availAux pre.length (d :: suf') := by
      rw [availAux]
      exact List.mem_cons_self _ _
    simp only [availAux]
    rcases hname : pyTruthyStr d.name with _ | n
    · -- falsy name: the token is the page positional index, matched by index
      have htok : pyOr d.name (pyNatRepr pre.length) = pyNatRepr pre.length := by
        rw [pyOr_eq_truthy, hname]
      rw [htok]
      have hfind : ds.find?
          (fun x => decide (x.name = some (pyNatRepr pre.length))) = none := by
        rw [List.find?_eq_none]
        intro x hx
        simp only [decide_eq_true_eq]
        intro hxn
        rw [hds] at hx
        rcases List.mem_append.mp hx with hpre | hcons
        · exact hdisj (mem_availAux_of_name hpre hxn (pyNatRepr_ne_empty _) 0)
            (htok ▸ hheadmem)
        · rcases List.mem_cons.mp hcons with rfl | hsuf
          · rcases pyTruthyStr_eq_none hname with h0 | h0
            · rw [h0] at hxn; cases hxn
            · rw [h0] at hxn
              injection hxn with hxn'
              exact pyNatRepr_ne_empty _ hxn'.symm
          · have hmem' : pyNatRepr pre.length ∈ availAux (pre.length + 1) suf' :=
              mem_availAux_of_name hsuf hxn (pyNatRepr_ne_empty _) _
            have hndr' : (pyNatRepr pre.length ::
                availAux (pre.length + 1) suf').Nodup := by
              rw [← htok]
              rw [availAux] at hndr
              exact hndr
            exact (List.nodup_cons.mp hndr').1 hmem'
      have hdig : pyIsDigit (pyNatRepr pre.length) = true := pyNatRepr_isDigit _
      have hval : digitsVal (pyNatRepr pre.length).data = pre.length :=
        digitsVal_pyNatRepr _
      have hget : ds[pre.length]? = some d := by
        rw [hds, List.getElem?_append_right (Nat.le_refl _), Nat.sub_self]
        simp
      simp only [spliceLoop, hfind, hdig, if_true, hval, hget, hname]
      obtain ⟨st', hst'⟩ := ih (pre ++ [d]) (some pre.length) (accP ++ [d])
        (accN ++ [pyNatRepr pre.length]) (by rw [hds]; simp)
      rw [List.length_append, List.length_cons, List.length_nil] at hst'
      refine ⟨st', ?_⟩
      rw [hst']
      simp
    · -- truthy name: the token is the page name, matched by exact name
      have htok : pyOr d.name (pyNatRepr pre.length) = n := by
        rw [pyOr_eq_truthy, hname]
      obtain ⟨hdn, hne⟩ := pyTruthyStr_eq_some hname
      rw [htok]
      have hfindpre : List.find? (fun x => decide (x.name = some n)) pre = none := by
        rw [List.find?_eq_none]
        intro x hx
        simp only [decide_eq_true_eq]
        intro hxn
        exact hdisj (mem_availAux_of_name hx hxn hne 0) (htok ▸ hheadmem)
      have hfind : ds.find? (fun x => decide (x.name = some n)) = some d := by
        rw [hds, find?_append_of_none hfindpre,
          List.find?_cons_of_pos _ (by simp [hdn])]
      simp only [spliceLoop, hfind, hname]
      obtain ⟨st', hst'⟩ := ih (pre ++ [d]) st (accP ++ [d]) (accN ++ [n])
        (by rw [hds]; simp)
      rw [List.length_append, List.length_cons, List.length_nil] at hst'
      refine ⟨st', ?_⟩
      rw [hst']
      simp

theorem spliceLoop_no_match (ds : List Diagram) :
    ∀ (toks : List String) (st : Option Nat),
      (∀ t ∈ toks, (∀ d ∈ ds, ¬ d.name = some t) ∧
        (pyIsDigit t = true → ds.length ≤ digitsVal t.data)) →
      ∃ st', spliceLoop ds toks st [] [] = ([], [], st') := by
  intro toks
  induction toks with
  | nil => intro st _; exact ⟨st, rfl⟩
  | cons t rest ih =>
    intro st hnm
    obtain ⟨hname, hidx⟩ := hnm t (List.mem_cons_self t rest)
    have hfind : ds.find? (fun d => decide (d.name = some t)) = none := by
      rw [List.find?_eq_none]
      intro x hx
      simp only [decide_eq_true_eq]
      exact hname x hx
    by_cases hdig : pyIsDigit t = true
    · have hget : ds[digitsVal t.data]? = none :=
        List.getElem?_eq_none (hidx hdig)
      simp only [spliceLoop, hfind, hdig, if_true, hget]
      exact ih (some (digitsVal t.data))
        (fun u hu => hnm u (List.mem_cons_of_mem t hu))
    · simp only [spliceLoop, hfind, Bool.not_eq_true] at hdig ⊢
      rw [hdig]
      simp only [Bool.false_eq_true, if_false]
      exact ih st (fun u hu => hnm u (List.mem_cons_of_mem t hu))

/-- C2 (code evaluated at the failing input): a container with a single page
whose `name` attribute is the empty string, spliced with the selection
`["9", ""]`. The first token assigns the loop-local `index = 9` (out of
bounds, nothing appended); the second token matches page 0 by its empty
name, and because its name is falsy the label falls back to
`str(index if 'index' in locals() else page)` — the stale `9` from the
previous iteration — so the output name list is `["9"]`, not the matched
page's own name (`""`) or own positional index (`"0"`). -/
theorem C2_stale_index_eval :
    substituteWithFile "ex.drawio" [⟨some "", none, "c0"⟩] (some ["9", ""]) =
      .ok [⟨some "", none, "c0"⟩] ["9"] ∧
    ("9" : String) ≠ "" ∧ ("9" : String) ≠ "0" :=
  ⟨by decide, by decide, by decide⟩

/-- C5: expanding the selector list `["0", "0", "@first"]` (against any
container) resolves to exactly `["0"]`; the flat expansion has three
occurrences of `"0"`, so two occurrences were dropped as duplicates, the
diagnostics set records the dropped value, and the one duplicate warning
summarizes the sorted, deduplicated dropped values (no warning without
drops). -/
theorem C5_expansion (ds : List Diagram) :
    expandTokens ds ["0", "0", "@first"] [] [] = (["0"], ["0"]) ∧
    (["0", "0", "@first"].map (fun t => resolveToken ds (pyStrip t))).flatten =
      ["0", "0", "0"] ∧
    (["0", "0", "@first"].map
        (fun t => resolveToken ds (pyStrip t))).flatten.length -
      (expandTokens ds ["0", "0", "@first"] [] []).1.length = 2 ∧
    dupSummary (expandTokens ds ["0", "0", "@first"] [] []).2 = some "0" ∧
    dupSummary [] = none :=
  ⟨rfl, rfl, rfl, rfl, rfl⟩

/-- C4 (counterexample): the round-trip fails when labels collide. In a
container whose first page is unnamed and whose second page is literally
named `"0"`, the available-label list is `["0", "0"]`; splicing it matches
the second page (name match precedes index fallback) for both tokens, so the
output holds page 1 twice and page 0's content is lost — not the same pages
in the same order. -/
theorem C4_counterexample :
    substituteWithFile "f.drawio"
        [⟨none, none, "c0"⟩, ⟨some "0", none, "c1"⟩] none =
      .ok [⟨some "0", none, "c1"⟩, ⟨some "0", none, "c1"⟩] ["0", "0"] ∧
    ([⟨some "0", none, "c1"⟩, ⟨some "0", none, "c1"⟩] : List Diagram) ≠
      [⟨none, none, "c0"⟩, ⟨some "0", none, "c1"⟩] :=
  ⟨by decide, by decide⟩

/-- C4 (amended): for every non-empty container whose resolved labels
(each page's `name`, or its stringified positional index when the name is
absent or empty) are pairwise distinct, splicing the selection of all those
labels in source order reproduces exactly the same pages in the same order,
and the resulting name list is exactly that label list. -/
theorem C4_amended (src : String) (ds : List Diagram) (hne : ds ≠ [])
    (hnd : (allAvailable ds).Nodup) :
    substituteWithFile src ds none = .ok ds (allAvailable ds) := by
  rw [allAvailable_eq_availAux] at hnd ⊢
  obtain ⟨st', hloop⟩ := spliceLoop_all ds hnd ds [] none [] [] (by simp)
  simp only [List.length_nil, List.nil_append] at hloop
  unfold substituteWithFile
  rw [if_neg (by simpa [List.isEmpty_iff] using hne)]
  simp only [allAvailable_eq_availAux, hloop]
  rw [if_neg (by simpa [List.isEmpty_iff] using hne)]

/-- C4 (witness): a two-page container (a named page `"A"`, then an unnamed
page) splices its own label list `["A", "1"]` back to itself. -/
theorem C4_witness :
    substituteWithFile "f.drawio"
        [⟨some "A", none, "c0"⟩, ⟨none, none, "c1"⟩] none =
      .ok [⟨some "A", none, "c0"⟩, ⟨none, none, "c1"⟩] ["A", "1"] := by
  have h := C4_amended "f.drawio" [⟨some "A", none, "c0"⟩, ⟨none, none, "c1"⟩]
    (by decide) (by decide)
  rw [show allAvailable [⟨some "A", none, "c0"⟩, ⟨none, none, "c1"⟩] =
    ["A", "1"] from by decide] at h
  exact h

theorem styledErrorHtml_eq_parts (m : String) :
    styledErrorHtml m = styledErrorHtmlPrefix ++ m ++ styledErrorHtmlSuffix := rfl

/-- C6: for every parseable, non-empty container and every resolved
selection in which no token matches any page (no page has the token as its
`name`, and a digit token's index is out of bounds), the splice step returns
the hard-failure error artifact instead of an embed, and the artifact's
message carries both the full escaped requested-name list and the full
escaped available-name list. -/
theorem C6_no_match_error (src : String) (ds : List Diagram)
    (sel : List String) (hne : ds ≠ [])
    (hnm : ∀ t ∈ (expandTokens ds sel [] []).1,
      (∀ d ∈ ds, ¬ d.name = some t) ∧
      (pyIsDigit t = true → ds.length ≤ digitsVal t.data)) :
    substituteWithFile src ds (some sel) =
      .err (styledErrorHtml
        ("No matching pages found in <b>" ++ src ++ "</b><br>"
          ++ "Requested: <b>" ++ joinEscaped (expandTokens ds sel [] []).1 ++ "</b><br>"
          ++ "Available: <b>" ++ joinEscaped (allAvailable ds) ++ "</b>")) ∧
    (∃ u v, styledErrorHtml
        ("No matching pages found in <b>" ++ src ++ "</b><br>"
          ++ "Requested: <b>" ++ joinEscaped (expandTokens ds sel [] []).1 ++ "</b><br>"
          ++ "Available: <b>" ++ joinEscaped (allAvailable ds) ++ "</b>") =
      u ++ joinEscaped (expandTokens ds sel [] []).1 ++ v) ∧
    (∃ u v, styledErrorHtml
        ("No matching pages found in <b>" ++ src ++ "</b><br>"
          ++ "Requested: <b>" ++ joinEscaped (expandTokens ds sel [] []).1 ++ "</b><br>"
          ++ "Available: <b>" ++ joinEscaped (allAvailable ds) ++ "</b>") =
      u ++ joinEscaped (allAvailable ds) ++ v) := by
  obtain ⟨st', hloop⟩ := spliceLoop_no_match ds (expandTokens ds sel [] []).1 none hnm
  refine ⟨?_, ?_, ?_⟩
  · unfold substituteWithFile
    rw [if_neg (by simpa [List.isEmpty_iff] using hne)]
    simp only [hloop]
    rfl
  · refine ⟨styledErrorHtmlPrefix ++
      ("No matching pages found in <b>" ++ src ++ "</b><br>" ++ "Requested: <b>"),
      "</b><br>" ++ "Available: <b>" ++ joinEscaped (allAvailable ds) ++ "</b>"
        ++ styledErrorHtmlSuffix, ?_⟩
    simp only [styledErrorHtml_eq_parts, String.append_assoc]
  · refine ⟨styledErrorHtmlPrefix ++
      ("No matching pages found in <b>" ++ src ++ "</b><br>" ++ "Requested: <b>"
        ++ joinEscaped (expandTokens ds sel [] []).1 ++ "</b><br>"
        ++ "Available: <b>"),
      "</b>" ++ styledErrorHtmlSuffix, ?_⟩
    simp only [styledErrorHtml_eq_parts, String.append_assoc]

/-- C6 (witness): requesting the nonexistent page `"missing"` from a
container with pages `"Page A"` and `"Page B"` produces the error artifact
with both lists. -/
theorem C6_witness :
    substituteWithFile "f.drawio"
        [⟨some "Page A", none, "a"⟩, ⟨some "Page B", none, "b"⟩]
        (some ["missing"]) =
      .err (styledErrorHtml
        ("No matching pages found in <b>" ++ "f.drawio" ++ "</b><br>"
          ++ "Requested: <b>" ++ joinEscaped ["missing"] ++ "</b><br>"
          ++ "Available: <b>" ++ joinEscaped ["Page A", "Page B"] ++ "</b>")) := by
  have h := (C6_no_match_error "f.drawio"
    [⟨some "Page A", none, "a"⟩, ⟨some "Page B", none, "b"⟩] ["missing"]
    (by decide) (by decide)).1
  rw [show (expandTokens [⟨some "Page A", none, "a"⟩, ⟨some "Page B", none, "b"⟩]
      ["missing"] [] []).1 = ["missing"] from by decide] at h
  rw [show allAvailable [⟨some "Page A", none, "a"⟩, ⟨some "Page B", none, "b"⟩]
      = ["Page A", "Page B"] from by decide] at h
  exact h

/-- C7: for any container, attribute map, URL builder and state, the
editor-link gate returns `none` (raising nothing) whenever editing is
disabled — the global `edit` configuration is boolean `false` or the
per-instance `data-edit` override lowercases to `"false"` — and likewise
returns `none` whenever no truthy page identifier can be recovered for the
first spliced page by name lookup in the original unspliced container. -/
theorem C7_edit_link_none (buildUrl : String → String) (cfg : DrawioConfig)
    (attrs : Attrs) (diagramXml : Option (List Diagram))
    (pageNames : List String) (page : Option Unit) (diagramConfig : Dict) :
    (cfg.edit = .bool false →
      (injectEditLink buildUrl cfg attrs diagramXml pageNames page
        diagramConfig).1 = none) ∧
    (pyLower ((attrsGet attrs "data-edit").getD "") = "false" →
      (injectEditLink buildUrl cfg attrs diagramXml pageNames page
        diagramConfig).1 = none) ∧
    ((∀ d ∈ diagramXml.getD [], d.name = some (pageNames.headD "") →
        d.id = none ∨ d.id = some "") →
      (injectEditLink buildUrl cfg attrs diagramXml pageNames page
        diagramConfig).1 = none) := by
  refine ⟨?_, ?_, ?_⟩
  · intro hc
    unfold injectEditLink
    rw [if_pos (by rw [hc]; simp)]
  · intro hd
    unfold injectEditLink
    rw [if_pos (by rw [hd]; simp)]
  · intro hrec
    unfold injectEditLink
    by_cases hgate : cfg.edit = PyEdit.bool false ∨
        pyLower ((attrsGet attrs "data-edit").getD "") = "false"
    · rw [if_pos (by
        rcases hgate with h | h
        · rw [h]; simp
        · rw [h]; simp)]
    · rw [if_neg (by
        push_neg at hgate
        simp only [Bool.or_eq_true, decide_eq_true_eq]
        rintro (h | h)
        · exact hgate.1 h
        · exact hgate.2 h)]
      rcases diagramXml with _ | xml
      · rfl
      rcases pageNames with _ | ⟨first, rest⟩
      · rcases page with _ | _ <;> rfl
      rcases page with _ | _
      · rfl
      simp only [Option.getD_some, List.headD_cons] at hrec
      rcases hf : xml.find? (fun d => decide (d.name = some first)) with _ | d
      · simp [hf]
      · have hd : d.id = none ∨ d.id = some "" := by
          refine hrec d (List.mem_of_find?_eq_some hf) ?_
          have := List.find?_some hf
          simpa using this
        rcases hd with h0 | h0 <;> simp [hf, h0]

/-- C7 (witness): instantiation at a concrete state — editing disabled
globally, disabled per-instance, and an id-less first page — all yield
`none`. -/
theorem C7_witness :
    (injectEditLink (fun _ => "URL") defaultConfig []
      (some [⟨some "A", some "id1", "c"⟩]) ["A"] (some ()) []).1 = none ∧
    (injectEditLink (fun _ => "URL")
      { defaultConfig with edit := .bool true } [("data-edit", "FaLsE")]
      (some [⟨some "A", some "id1", "c"⟩]) ["A"] (some ()) []).1 = none ∧
    (injectEditLink (fun _ => "URL")
      { defaultConfig with edit := .bool true } []
      (some [⟨some "A", none, "c"⟩]) ["A"] (some ()) []).1 = none :=
  ⟨(C7_edit_link_none (fun _ => "URL") defaultConfig []
      (some [⟨some "A", some "id1", "c"⟩]) ["A"] (some ()) []).1 rfl,
   (C7_edit_link_none (fun _ => "URL")
      { defaultConfig with edit := .bool true } [("data-edit", "FaLsE")]
      (some [⟨some "A", some "id1", "c"⟩]) ["A"] (some ()) []).2.1 (by decide),
   (C7_edit_link_none (fun _ => "URL")
      { defaultConfig with edit := .bool true } []
      (some [⟨some "A", none, "c"⟩]) ["A"] (some ()) []).2.2 (by decide)⟩

/-- C10: a per-instance `data-edit` attribute suppresses the editor link
exactly when its value lowercases to the literal `"false"`; the other falsy
spellings the boolean coercion accepts (`"0"`, `"no"`) do not suppress it
(with everything else in place the link is produced); and a global `edit`
configuration of boolean `false` suppresses the link regardless of the
per-instance override. -/
theorem C10_data_edit (buildUrl : String → String) (cfg : DrawioConfig)
    (attrs : Attrs) (diagramXml : Option (List Diagram))
    (pageNames : List String) (page : Option Unit) (diagramConfig : Dict) :
    (∀ v, attrsGet attrs "data-edit" = some v → pyLower v = "false" →
      (injectEditLink buildUrl cfg attrs diagramXml pageNames page
        diagramConfig).1 = none) ∧
    (cfg.edit = .bool false →
      (injectEditLink buildUrl cfg attrs diagramXml pageNames page
        diagramConfig).1 = none) ∧
    (injectEditLink (fun _ => "URL") { defaultConfig with edit := .bool true }
      [("data-edit", "0")] (some [⟨some "A", some "id1", "c"⟩]) ["A"]
      (some ()) []).1 = some "URL" ∧
    (injectEditLink (fun _ => "URL") { defaultConfig with edit := .bool true }
      [("data-edit", "no")] (some [⟨some "A", some "id1", "c"⟩]) ["A"]
      (some ()) []).1 = some "URL" ∧
    (injectEditLink (fun _ => "URL") { defaultConfig with edit := .bool true }
      [("data-edit", "FALSE")] (some [⟨some "A", some "id1", "c"⟩]) ["A"]
      (some ()) []).1 = none := by
  refine ⟨?_, ?_, by decide, by decide, by decide⟩
  · intro v hv hlow
    unfold injectEditLink
    rw [if_pos (by simp [hv, hlow])]
  · intro hc
    unfold injectEditLink
    rw [if_pos (by rw [hc]; simp)]

/-- C10 (witness): the suppression conjuncts applied at concrete inputs
(the production conjuncts of the theorem are already closed). -/
theorem C10_witness :
    (injectEditLink (fun _ => "URL") { defaultConfig with edit := .bool true }
      [("data-edit", "False")] (some [⟨some "A", some "id1", "c"⟩]) ["A"]
      (some ()) []).1 = none ∧
    (injectEditLink (fun _ => "URL")
      { defaultConfig with edit := .bool false } [("data-edit", "yes")]
      (some [⟨some "A", some "id1", "c"⟩]) ["A"] (some ()) []).1 = none :=
  ⟨(C10_data_edit (fun _ => "URL") { defaultConfig with edit := .bool true }
      [("data-edit", "False")] (some [⟨some "A", some "id1", "c"⟩]) ["A"]
      (some ()) []).1 "False" rfl (by decide),
   (C10_data_edit (fun _ => "URL")
      { defaultConfig with edit := .bool false } [("data-edit", "yes")]
      (some [⟨some "A", some "id1", "c"⟩]) ["A"] (some ()) []).2.1 rfl⟩
